import Mathlib

/-!
Verification development for an AWS-Lambda-to-GraphQL HTTP adapter.

The embedding models the two core source functions:
* `createHandler` (request translator: CORS synthesis, OPTIONS preflight,
  playground tool page, file-upload preprocessing, callback/promise modes);
* `graphqlLambda` (execution bridge: POST body validation, content-type
  driven query extraction, engine invocation and result/error mapping).

JavaScript runtime facilities (JSON.parse, Buffer.from, the GraphQL engine
`runHttpQuery`, the upload processor, the playground renderer) are external
collaborators and are passed in as function parameters.
-/

set_option autoImplicit false

namespace ApolloLambda

/-- Error values thrown across the adapter boundary; the payload is opaque
to this layer, so a string tag suffices. -/
abbrev Err := String

/-- Raw bytes handed to the upload processor (contents of a Node Buffer). -/
abbrev ByteBuf := List Nat

/-- JSON values, the result type of the external JSON.parse collaborator and
the output type of the upload processor. -/
inductive JsValue where
  | null
  | bool (b : Bool)
  | num (n : Int)
  | str (s : String)
  | arr (elems : List JsValue)
  | obj (fields : List (String × JsValue))

/-- A request body: originally a string from the platform event; after upload
preprocessing it may be replaced by a structured object (the source assigns
the processor's result to `event.body` through an `any` cast). -/
inductive BodyVal where
  | str (s : String)
  | obj (v : JsValue)

/-- JavaScript truthiness of a body value: the empty string is falsy,
any object is truthy. -/
def BodyVal.truthy : BodyVal → Bool
  | .str s => s ≠ ""
  | .obj _ => true

/-- Truthiness of `event.body` (absent or empty string is falsy). -/
def bodyTruthy : Option BodyVal → Bool
  | none => false
  | some b => b.truthy

/-- String coercion applied by JS when a non-string value reaches a string
context (`JSON.parse` / `Buffer.from` call String() on their argument). -/
def BodyVal.asString : BodyVal → String
  | .str s => s
  | .obj _ => "[object Object]"

/-- ASCII lowercasing of a character, modelling JS String.toLowerCase on
the ASCII header names this adapter manipulates. -/
def lowerChar (ch : Char) : Char :=
  if 'A' ≤ ch ∧ ch ≤ 'Z' then Char.ofNat (ch.toNat + 32) else ch

/-- ASCII lowercasing of a string. -/
def lowerStr (s : String) : String :=
  String.mk (s.data.map lowerChar)

/-- JS `String.prototype.startsWith`, computed on the character lists. -/
def strStartsWith (s p : String) : Bool :=
  p.data.isPrefixOf s.data

/-- Helper for `strIncludes`: does the needle occur at any position of the
haystack list. -/
def includesAux (needle : List Char) : List Char → Bool
  | [] => needle.isPrefixOf []
  | ch :: rest => needle.isPrefixOf (ch :: rest) || includesAux needle rest

/-- JS `String.prototype.includes`, computed on the character lists. -/
def strIncludes (hay needle : String) : Bool :=
  includesAux needle.data hay.data

/-- First value bound to key `k` in an association list (JS object lookup:
keys of a JS object are unique, so first = only). -/
def assocGet (h : List (String × String)) (k : String) : Option String :=
  match h with
  | [] => none
  | (k', v) :: t => if k' = k then some v else assocGet t k

/-- Whether the key is present. -/
def assocHas (h : List (String × String)) (k : String) : Bool :=
  (assocGet h k).isSome

/-- Replace the value bound to key `k`, keeping the entry's position. -/
def assocReplace (h : List (String × String)) (k v : String) : List (String × String) :=
  match h with
  | [] => []
  | (k', w) :: t =>
    if k' = k then (k', v) :: assocReplace t k v else (k', w) :: assocReplace t k v

/-- JS object assignment / Headers.set: replace the value in place when the
key exists, append a fresh entry otherwise. -/
def assocSet (h : List (String × String)) (k v : String) : List (String × String) :=
  if assocHas h k then assocReplace h k v else h ++ [(k, v)]

/-- JS object spread `{...a, ...b}`: keys of `a` in order, values overridden
by `b` where `b` also binds them, followed by the keys only `b` binds. -/
def spread (a b : List (String × String)) : List (String × String) :=
  a.map (fun p =>
    match assocGet b p.1 with
    | some w => (p.1, w)
    | none => p)
  ++ b.filter (fun p => !(assocHas a p.1))

/-- The Fetch-style case-insensitive header map used by the adapter
(`apollo-server-env`'s `Headers`): an ordered list of lowercased-key pairs. -/
abbrev Headers := List (String × String)

/-- Case-insensitive header lookup (`headers.get(name)`). -/
def Headers.get (h : Headers) (k : String) : Option String :=
  assocGet h (lowerStr k)

/-- Case-insensitive header update (`headers.set(name, value)`). -/
def Headers.set (h : Headers) (k v : String) : Headers :=
  assocSet h (lowerStr k) v

/-- Building a `Headers` from the raw platform header object
(`new Headers(event.headers)`): each raw entry is stored under its
lowercased key. -/
def Headers.ofRaw (raw : List (String × String)) : Headers :=
  raw.foldl (fun h p => Headers.set h p.1 p.2) []

/-- Converting a unique-keyed `Headers` into a plain JS object by the
source's `Array.from(headers).reduce((o, [k, v]) => { o[k] = v; return o }, {})`. -/
def objFromEntries (h : Headers) : List (String × String) :=
  h.foldl (fun o p => assocSet o p.1 p.2) []

/-- JS truthiness of a header lookup result: absent or empty string is falsy. -/
def headerValTruthy : Option String → Bool
  | none => false
  | some s => s ≠ ""

/-- The `cors.origin` configuration field: `boolean | string | string[]`. -/
inductive OriginSetting where
  | bool (b : Bool)
  | str (s : String)
  | list (l : List String)
deriving DecidableEq

/-- JS truthiness of an origin setting (`false` and `""` are falsy; any
array, even empty, is truthy). -/
def OriginSetting.truthy : OriginSetting → Bool
  | .bool b => b
  | .str s => s ≠ ""
  | .list _ => true

/-- A `string | string[]` CORS configuration field. -/
inductive StrOrList where
  | str (s : String)
  | list (l : List String)
deriving DecidableEq

/-- JS truthiness of a `string | string[]` field. -/
def StrOrList.truthy : StrOrList → Bool
  | .str s => s ≠ ""
  | .list _ => true

/-- The header value the source derives from the field: a string is used
verbatim, an array is joined with commas. -/
def StrOrList.joined : StrOrList → String
  | .str s => s
  | .list l => String.intercalate "," l

/-- Truthiness of an optional `string | string[]` field. -/
def optTruthy : Option StrOrList → Bool
  | none => false
  | some x => x.truthy

/-- Truthiness of the optional origin field. -/
def originTruthy : Option OriginSetting → Bool
  | none => false
  | some x => x.truthy

/-- The `cors` option block of `CreateHandlerOptions`. -/
structure CorsOptions where
  origin : Option OriginSetting := none
  methods : Option StrOrList := none
  allowedHeaders : Option StrOrList := none
  exposedHeaders : Option StrOrList := none
  credentials : Bool := false
  maxAge : Option Int := none

/-- The `if (cors.methods) { ... }` block of `createHandler`. -/
def addMethods (c : CorsOptions) (h : Headers) : Headers :=
  match c.methods with
  | some m => if m.truthy then h.set "access-control-allow-methods" m.joined else h
  | none => h

/-- The `if (cors.allowedHeaders) { ... }` block of `createHandler`. -/
def addAllowedHeaders (c : CorsOptions) (h : Headers) : Headers :=
  match c.allowedHeaders with
  | some m => if m.truthy then h.set "access-control-allow-headers" m.joined else h
  | none => h

/-- The `if (cors.exposedHeaders) { ... }` block of `createHandler`. -/
def addExposedHeaders (c : CorsOptions) (h : Headers) : Headers :=
  match c.exposedHeaders with
  | some m => if m.truthy then h.set "access-control-expose-headers" m.joined else h
  | none => h

/-- The `if (cors.credentials)` line of `createHandler`. -/
def addCredentials (c : CorsOptions) (h : Headers) : Headers :=
  if c.credentials then h.set "access-control-allow-credentials" "true" else h

/-- The `if (typeof cors.maxAge === 'number')` line of `createHandler`
(note: this is a type test, not a truthiness test, so `0` qualifies). -/
def addMaxAge (c : CorsOptions) (h : Headers) : Headers :=
  match c.maxAge with
  | some n => h.set "access-control-max-age" (toString n)
  | none => h

/-- The per-instance base CORS headers computed once in `createHandler`
before the request closure is returned. -/
def baseCorsHeaders (cors : Option CorsOptions) : Headers :=
  match cors with
  | none => []
  | some c => addMaxAge c (addCredentials c (addExposedHeaders c (addAllowedHeaders c (addMethods c []))))

/-- The `access-control-allow-origin` computation inside
`if (cors && cors.origin)`: a literal string policy is used verbatim; a
boolean (necessarily `true` under the enclosing truthiness guard) or a list
containing the request's `Origin` reflects the request origin; otherwise
the header is left unset. -/
def originHeaderAdd (o : OriginSetting) (requestOrigin : Option String) (base : Headers) : Headers :=
  match o with
  | .str s => base.set "access-control-allow-origin" s
  | .bool _ =>
    if headerValTruthy requestOrigin then
      base.set "access-control-allow-origin" (requestOrigin.getD "")
    else base
  | .list l =>
    if headerValTruthy requestOrigin ∧ l.contains (requestOrigin.getD "") then
      base.set "access-control-allow-origin" (requestOrigin.getD "")
    else base

/-- The `if (!cors.allowedHeaders && requestAccessControlRequestHeaders)`
reflection of the preflight's requested headers. -/
def reflectAllowedHeaders (c : CorsOptions) (racrh : Option String) (h : Headers) : Headers :=
  if ¬ optTruthy c.allowedHeaders ∧ headerValTruthy racrh then
    h.set "access-control-allow-headers" (racrh.getD "")
  else h

/-- The request-specific CORS headers: a copy of the base headers, extended
inside `if (cors && cors.origin)` with the computed
`access-control-allow-origin` and, when the policy did not set allowed
headers, the reflected `access-control-allow-headers`. -/
def requestCorsHeaders (cors : Option CorsOptions) (eventHeaders : Headers) : Headers :=
  let base := baseCorsHeaders cors
  match cors with
  | none => base
  | some c =>
    match c.origin with
    | none => base
    | some o =>
      if o.truthy then
        reflectAllowedHeaders c (eventHeaders.get "access-control-request-headers")
          (originHeaderAdd o (eventHeaders.get "origin") base)
      else base

/-- An incoming platform HTTP event (`APIGatewayProxyEvent`), restricted to
the fields the adapter reads. `requestContextPath` is `some p` when
`event.requestContext` is present with path `p` (an absent `requestContext`
and an absent `path` inside it behave identically under JS truthiness). -/
structure HttpEvent where
  httpMethod : String
  path : String := ""
  headers : List (String × String) := []
  queryStringParameters : Option (List (String × String)) := none
  body : Option BodyVal := none
  isBase64Encoded : Bool := false
  requestContextPath : Option String := none

/-- A platform HTTP response (`APIGatewayProxyResult`). A source response
without a `headers` field is modelled with an empty list (spreading
`undefined` and spreading `{}` coincide). -/
structure LambdaResult where
  body : String
  statusCode : Nat
  headers : List (String × String) := []
deriving DecidableEq

/-- The query payload handed to the GraphQL engine: the query-string
parameter object for GET, the raw body for a non-JSON POST, or the parsed
JSON value for an `application/json` POST. -/
inductive Payload where
  | qs (params : Option (List (String × String)))
  | body (b : BodyVal)
  | parsed (v : JsValue)

/-- Outcome of one engine invocation (`runHttpQuery`): success with a
serialized body and response headers, a structured `HttpQueryError`
carrying status/headers/message, or any other thrown error. -/
inductive EngineOutcome where
  | ok (body : String) (headers : List (String × String))
  | queryError (statusCode : Nat) (headers : List (String × String)) (message : String)
  | fatal (e : Err)

/-- The external collaborators of the adapter: the engine lifecycle and
execution entry points, the JS runtime's JSON parser and Buffer decoder,
the optional upload processor, the error formatter and the playground
renderer. Opaque arguments the source merely forwards (upload config, the
response sink stream, `playgroundOptions` rendering options) are folded
into the respective function. -/
structure Collab where
  willStart : Except Err Unit
  buildOptions : Except Err Unit
  runHttpQuery : Payload → HttpEvent → EngineOutcome
  jsonParse : String → Option JsValue
  processFileUploads : Option (ByteBuf → Except Err JsValue)
  bufferFrom : String → Bool → ByteBuf
  formatApolloErrors : Err → Err
  renderPlaygroundPage : String → String

/-- Adapter-instance configuration relevant to the handler: the CORS policy
and whether a playground (interactive tool) configuration is present. -/
structure HandlerConfig where
  cors : Option CorsOptions := none
  playgroundOptions : Bool := false

/-- Maps an engine outcome to the bridge's response, mirroring the
`try { ... } catch (error) { if (error instanceof HttpQueryError) ... }`
tail of `graphqlLambda`: success becomes a 200 with the engine's headers, a
structured query error becomes a response with its carried status, headers
and message, and any other error is re-thrown. -/
def engineMap (o : EngineOutcome) : Except Err LambdaResult :=
  match o with
  | .ok b h => .ok { body := b, statusCode := 200, headers := h }
  | .queryError s h m => .ok { body := m, statusCode := s, headers := h }
  | .fatal e => .error e

/-- Query extraction phase of `graphqlLambda`: the query defaults to the
query-string parameters; for a POST with a truthy body the body replaces
it, parsed as JSON exactly when the content-type starts with
`application/json` (a parse failure is a terminal 415 response). -/
def extractQuery (jsonParse : String → Option JsValue) (event : HttpEvent) :
    Except LambdaResult Payload :=
  let headers := Headers.ofRaw event.headers
  let contentType := headers.get "content-type"
  if event.httpMethod = "POST" ∧ bodyTruthy event.body then
    match event.body with
    | some b =>
      if headerValTruthy contentType ∧ strStartsWith (contentType.getD "") "application/json" then
        match jsonParse b.asString with
        | some v => .ok (.parsed v)
        | none => .error { body := "Error parsing JSON POST body", statusCode := 415 }
      else .ok (.body b)
    | none => .ok (.qs event.queryStringParameters)
  else .ok (.qs event.queryStringParameters)

/-- The execution bridge `graphqlLambda` (async variant): POST-body
validation, query extraction, engine invocation and result mapping. -/
def graphqlLambdaRun (c : Collab) (event : HttpEvent) : Except Err LambdaResult :=
  if event.httpMethod = "POST" ∧ ¬ bodyTruthy event.body then
    .ok { body := "POST body missing.", statusCode := 500 }
  else
    match extractQuery c.jsonParse event with
    | .error resp => .ok resp
    | .ok q => engineMap (c.runHttpQuery q event)

/-- The `handleFileUploads` step: a no-op when the upload processor is unavailable or
the body is strictly null; otherwise, when the content-type starts with
`multipart/form-data`, the body (base64-decoded by `Buffer.from` when the
event is flagged) is fed to the upload processor and its structured result
returned as the new body, and for any other content-type the body passes
through unchanged. (The source also writes the lowercased `content-type`
key into the raw header object it lends to the processor's request stream;
no later read is case-sensitive, so that write is unobservable here.) -/
def handleFileUploads (c : Collab) (event : HttpEvent) (eventHeaders : Headers) :
    Except Err (Option BodyVal) :=
  match c.processFileUploads, event.body with
  | none, _ => .ok event.body
  | some _, none => .ok event.body
  | some pfu, some b =>
    let contentType := eventHeaders.get "content-type"
    if headerValTruthy contentType ∧ strStartsWith (contentType.getD "") "multipart/form-data" then
      match pfu (c.bufferFrom b.asString event.isBase64Encoded) with
      | .ok v => .ok (some (.obj v))
      | .error e => .error e
    else .ok (some b)

/-- Merges the request-specific CORS headers over a successful result's own
headers (`{ ...result.headers, ...requestCorsHeadersObject }`); errors pass
through. -/
def corsMerge (x : Except Err LambdaResult) (corsObj : List (String × String)) :
    Except Err LambdaResult :=
  match x with
  | .ok r => .ok { r with headers := spread r.headers corsObj }
  | .error e => .error e

/-- The primary (non-short-circuited) path of the request closure: await
`willStart`, pre-process uploads (a failure there is formatted through the
engine's error formatter and re-thrown), build the per-request GraphQL
options, run the bridge on the event with the possibly-replaced body, and
merge the CORS headers into the result. -/
def mainPath (c : Collab) (event : HttpEvent) (eventHeaders : Headers)
    (reqCorsObj : List (String × String)) : Except Err LambdaResult :=
  match c.willStart with
  | .error e => .error e
  | .ok _ =>
    match handleFileUploads c event eventHeaders with
    | .error e => .error (c.formatApolloErrors e)
    | .ok newBody =>
      let event' := { event with body := newBody }
      match c.buildOptions with
      | .error e => .error e
      | .ok _ => corsMerge (graphqlLambdaRun c event') reqCorsObj

/-- The `event.headers['Accept'] || event.headers['accept']` lookup followed
by `acceptHeader && acceptHeader.includes('text/html')`: a case-sensitive
raw-object lookup under exactly those two spellings. -/
def toolPageAccept (event : HttpEvent) : Bool :=
  let a :=
    if headerValTruthy (assocGet event.headers "Accept") then assocGet event.headers "Accept"
    else assocGet event.headers "accept"
  headerValTruthy a ∧ strIncludes (a.getD "") "text/html"

/-- The playground endpoint:
`event.path || (event.requestContext && event.requestContext.path) || '/'`. -/
def endpointPath (event : HttpEvent) : String :=
  if event.path ≠ "" then event.path
  else
    match event.requestContextPath with
    | some p => if p ≠ "" then p else "/"
    | none => "/"

/-- A call of the completion callback: `callback(null, result)` or
`callback(error)`. -/
inductive CallbackCall where
  | success (r : LambdaResult)
  | failure (e : Err)
deriving DecidableEq

/-- How a handler invocation hands its outcome back to the host: a returned
promise (async mode) or a completion-callback call (callback mode). -/
inductive Delivery where
  | promised (r : Except Err LambdaResult)
  | calledBack (c : CallbackCall)

/-- The request closure returned by `createHandler`: OPTIONS preflight
short-circuit, playground tool-page short-circuit, and otherwise the
primary path; each branch delivers its result as a promise in async mode
and through the callback otherwise. (The `callbackWaitsForEmptyEventLoop`
writes only affect host scheduling, not the response, and are not
modelled.) -/
def createHandler (cfg : HandlerConfig) (c : Collab) (async : Bool)
    (event : HttpEvent) : Delivery :=
  let eventHeaders := Headers.ofRaw event.headers
  let reqCorsObj := objFromEntries (requestCorsHeaders cfg.cors eventHeaders)
  if event.httpMethod = "OPTIONS" then
    let result : LambdaResult := { body := "", statusCode := 204, headers := reqCorsObj }
    if async then .promised (.ok result) else .calledBack (.success result)
  else if cfg.playgroundOptions ∧ event.httpMethod = "GET" ∧ toolPageAccept event then
    let result : LambdaResult :=
      { body := c.renderPlaygroundPage (endpointPath event)
        statusCode := 200
        headers := spread [("Content-Type", "text/html")] reqCorsObj }
    if async then .promised (.ok result) else .calledBack (.success result)
  else
    let r := mainPath c event eventHeaders reqCorsObj
    if async then .promised r
    else
      .calledBack (match r with | .ok v => .success v | .error e => .failure e)

/-- The response an invocation delivers, abstracting over the delivery
mechanism: the promise's resolution, or the callback's argument. -/
def deliveredResponse : Delivery → Except Err LambdaResult
  | .promised r => r
  | .calledBack (.success r) => .ok r
  | .calledBack (.failure e) => .error e

/-- Whether a delivered outcome, when it is a response, carries header `k`
with value `v` (an error outcome carries no response to inspect). -/
def respHeaderHas (x : Except Err LambdaResult) (k v : String) : Bool :=
  match x with
  | .ok r => assocGet r.headers k == some v
  | .error _ => true

/-- A sample CORS policy used to exercise the theorems on concrete input. -/
def wCors : CorsOptions :=
  { origin := some (.bool true), methods := some (.str "GET,POST"), maxAge := some 600 }

/-- A sample adapter configuration with CORS and the playground enabled. -/
def wCfg : HandlerConfig :=
  { cors := some wCors, playgroundOptions := true }

/-- A sample collaborator assembly: a healthy engine returning one response
header, a failing JSON parser, and a trivial upload processor. -/
def wCollab : Collab :=
  { willStart := .ok ()
    buildOptions := .ok ()
    runHttpQuery := fun _ _ => .ok "resp" [("x-engine", "1")]
    jsonParse := fun _ => none
    processFileUploads := some (fun _ => .ok .null)
    bufferFrom := fun s _ => s.data.map Char.toNat
    formatApolloErrors := fun e => String.append "fmt:" e
    renderPlaygroundPage := fun p => String.append "HTML@" p }

/-- A configuration whose CORS policy only sets the allowed methods. -/
def wCfgMethods : HandlerConfig :=
  { cors := some { methods := some (.str "GET,POST") } }

/-- A collaborator whose engine emits a header that collides with a CORS
header, to observe the merge precedence. -/
def wCollabClash : Collab :=
  { wCollab with
    runHttpQuery := fun _ _ =>
      .ok "resp" [("x-engine", "1"), ("access-control-allow-methods", "ENGINE")] }

/-- A collaborator whose engine throws a structured query error. -/
def wCollabQueryError : Collab :=
  { wCollab with
    runHttpQuery := fun _ _ => .queryError 403 [("www-authenticate", "Bearer")] "denied" }

/-- A collaborator whose engine throws an unexpected error. -/
def wCollabFatal : Collab :=
  { wCollab with runHttpQuery := fun _ _ => .fatal "boom" }

/-- A collaborator whose upload processor fails. -/
def wCollabUploadFail : Collab :=
  { wCollab with processFileUploads := some (fun _ => .error "upload broke") }

/-! ### Association-list lemmas -/

/-- The keys of an association list are pairwise distinct (true of every JS
object and of every `Headers` value this adapter builds). -/
def keysNodup (h : List (String × String)) : Prop :=
  (h.map Prod.fst).Nodup

theorem assocGet_append (a b : List (String × String)) (k : String) :
    assocGet (a ++ b) k =
      match assocGet a k with
      | some v => some v
      | none => assocGet b k := by
  induction a with
  | nil => simp [assocGet]
  | cons p t ih =>
    obtain ⟨pk, pv⟩ := p
    by_cases hk : pk = k <;> simp [assocGet, hk, ih]

theorem assocGet_eq_none_iff (h : List (String × String)) (k : String) :
    assocGet h k = none ↔ k ∉ h.map Prod.fst := by
  induction h with
  | nil => simp [assocGet]
  | cons p t ih =>
    obtain ⟨pk, pv⟩ := p
    by_cases hk : pk = k
    · simp [assocGet, hk]
    · have hk' : ¬ k = pk := fun hc => hk hc.symm
      simp [assocGet, hk, hk', ih]

theorem assocGet_of_has (h : List (String × String)) {k : String}
    (hh : ¬ assocHas h k = true) : assocGet h k = none := by
  unfold assocHas at hh
  cases he : assocGet h k with
  | none => rfl
  | some w => exfalso; apply hh; rw [he]; rfl

theorem assocGet_replace (h : List (String × String)) (k v : String) :
    assocGet (assocReplace h k v) k = if assocHas h k then some v else none := by
  induction h with
  | nil => simp [assocGet, assocReplace, assocHas]
  | cons p t ih =>
    obtain ⟨pk, pv⟩ := p
    by_cases hk : pk = k <;> simp [assocGet, assocReplace, assocHas, hk, ih]

theorem assocGet_replace_ne (h : List (String × String)) {k k' : String}
    (hne : k' ≠ k) (v : String) :
    assocGet (assocReplace h k v) k' = assocGet h k' := by
  induction h with
  | nil => simp [assocReplace]
  | cons p t ih =>
    obtain ⟨pk, pv⟩ := p
    by_cases hk : pk = k
    · subst hk
      have hne' : ¬ pk = k' := fun hc => hne hc.symm
      simp [assocGet, assocReplace, hne', ih]
    · by_cases hk' : pk = k'
      · subst hk'
        simp [assocGet, assocReplace, hk]
      · simp [assocGet, assocReplace, hk, hk', ih]

theorem assocGet_set_self (h : List (String × String)) (k v : String) :
    assocGet (assocSet h k v) k = some v := by
  unfold assocSet
  by_cases hh : assocHas h k = true
  · rw [if_pos hh, assocGet_replace, if_pos hh]
  · rw [if_neg hh, assocGet_append, assocGet_of_has h hh]
    simp [assocGet]

theorem assocGet_set_ne (h : List (String × String)) {k k' : String}
    (hne : k' ≠ k) (v : String) :
    assocGet (assocSet h k v) k' = assocGet h k' := by
  unfold assocSet
  by_cases hh : assocHas h k = true
  · rw [if_pos hh, assocGet_replace_ne h hne]
  · rw [if_neg hh, assocGet_append]
    have h1 : assocGet [(k, v)] k' = none := by
      have h2 : ¬ k = k' := fun hc => hne hc.symm
      simp [assocGet, h2]
    rw [h1]
    cases assocGet h k' <;> rfl

theorem keysFst_replace (h : List (String × String)) (k v : String) :
    (assocReplace h k v).map Prod.fst = h.map Prod.fst := by
  induction h with
  | nil => rfl
  | cons p t ih =>
    obtain ⟨pk, pv⟩ := p
    by_cases hk : pk = k <;> simp [assocReplace, hk, ih]

theorem keysNodup_set (h : List (String × String)) (k v : String)
    (hn : keysNodup h) : keysNodup (assocSet h k v) := by
  unfold assocSet
  by_cases hh : assocHas h k = true
  · rw [if_pos hh]
    unfold keysNodup at hn ⊢
    rw [keysFst_replace]
    exact hn
  · rw [if_neg hh]
    unfold keysNodup at hn ⊢
    have hknot : k ∉ h.map Prod.fst := by
      rw [← assocGet_eq_none_iff]
      exact assocGet_of_has h hh
    have hnd : (h.map Prod.fst ++ [k]).Nodup := by
      rw [List.nodup_append]
      refine ⟨hn, List.nodup_singleton k, ?_⟩
      intro a ha hb
      simp only [List.mem_singleton] at hb
      rw [hb] at ha
      exact hknot ha
    simpa using hnd

theorem keysNodup_headersSet (h : Headers) (k v : String) (hn : keysNodup h) :
    keysNodup (Headers.set h k v) :=
  keysNodup_set h (lowerStr k) v hn

theorem headersSet_get_ne (h : Headers) {k' : String} (k : String)
    (hne : k' ≠ lowerStr k) (v : String) :
    assocGet (Headers.set h k v) k' = assocGet h k' :=
  assocGet_set_ne h hne v

theorem objFromEntries_foldl (h : List (String × String)) :
    ∀ acc : List (String × String), (∀ p ∈ h, assocGet acc p.1 = none) → keysNodup h →
      h.foldl (fun o p => assocSet o p.1 p.2) acc = acc ++ h := by
  induction h with
  | nil => intro acc _ _; simp
  | cons p t ih =>
    intro acc hfresh hn
    have hset : assocSet acc p.1 p.2 = acc ++ [(p.1, p.2)] := by
      unfold assocSet assocHas
      rw [hfresh p (List.mem_cons_self p t)]
      simp
    have hcons : (List.map Prod.fst (p :: t)).Nodup := hn
    rw [List.map_cons, List.nodup_cons] at hcons
    have hn' : keysNodup t := hcons.2
    have hnot : p.1 ∉ t.map Prod.fst := hcons.1
    have hfresh' : ∀ q ∈ t, assocGet (acc ++ [(p.1, p.2)]) q.1 = none := by
      intro q hq
      rw [assocGet_append, hfresh q (List.mem_cons_of_mem p hq)]
      have hq1 : q.1 ≠ p.1 := by
        intro hc
        apply hnot
        rw [← hc]
        exact List.mem_map_of_mem Prod.fst hq
      have hq2 : ¬ p.1 = q.1 := fun hc => hq1 hc.symm
      simp [assocGet, hq2]
    simp only [List.foldl_cons, hset]
    rw [ih (acc ++ [(p.1, p.2)]) hfresh' hn']
    simp

theorem objFromEntries_eq (h : List (String × String)) (hn : keysNodup h) :
    objFromEntries h = h := by
  unfold objFromEntries
  have := objFromEntries_foldl h [] (by intro p _; rfl) hn
  simpa using this

theorem assocGet_map_override (a b : List (String × String)) (k : String) :
    assocGet (a.map (fun p =>
      match assocGet b p.1 with
      | some w => (p.1, w)
      | none => p)) k =
      (assocGet a k).map (fun v => (assocGet b k).getD v) := by
  induction a with
  | nil => simp [assocGet]
  | cons p t ih =>
    by_cases hk : p.1 = k
    · subst hk
      cases hb : assocGet b p.1 <;> simp [assocGet, hb]
    · cases hb : assocGet b p.1 <;> simp [assocGet, hb, hk, ih]

theorem assocGet_filter_fresh (a b : List (String × String)) (k : String) :
    assocGet (b.filter (fun p => !(assocHas a p.1))) k =
      if assocHas a k then none else assocGet b k := by
  induction b with
  | nil => simp [assocGet]
  | cons p t ih =>
    by_cases hk : p.1 = k
    · subst hk
      by_cases hh : assocHas a p.1 = true <;> simp [assocGet, hh, ih]
    · by_cases hh : assocHas a p.1 = true <;> simp [assocGet, hh, hk, ih]

/-- Lookup in a JS object spread `{...a, ...b}`: `b`'s binding wins when
present, otherwise `a`'s survives. -/
theorem spread_get (a b : List (String × String)) (k : String) :
    assocGet (spread a b) k =
      match assocGet a k with
      | some v => some ((assocGet b k).getD v)
      | none => assocGet b k := by
  unfold spread
  rw [assocGet_append, assocGet_map_override, assocGet_filter_fresh]
  unfold assocHas
  cases ha : assocGet a k <;> simp

theorem spread_get_right (a b : List (String × String)) {k v : String}
    (hb : assocGet b k = some v) : assocGet (spread a b) k = some v := by
  rw [spread_get]
  cases assocGet a k <;> simp [hb]

theorem spread_get_left (a b : List (String × String)) {k v : String}
    (ha : assocGet a k = some v) (hb : assocGet b k = none) :
    assocGet (spread a b) k = some v := by
  rw [spread_get, ha, hb]
  rfl

/-! ### Lowercasing of the literal header names the adapter uses -/

@[simp] theorem lowerStr_acam :
    lowerStr "access-control-allow-methods" = "access-control-allow-methods" := rfl

@[simp] theorem lowerStr_acah :
    lowerStr "access-control-allow-headers" = "access-control-allow-headers" := rfl

@[simp] theorem lowerStr_aceh :
    lowerStr "access-control-expose-headers" = "access-control-expose-headers" := rfl

@[simp] theorem lowerStr_acac :
    lowerStr "access-control-allow-credentials" = "access-control-allow-credentials" := rfl

@[simp] theorem lowerStr_acma :
    lowerStr "access-control-max-age" = "access-control-max-age" := rfl

@[simp] theorem lowerStr_acao :
    lowerStr "access-control-allow-origin" = "access-control-allow-origin" := rfl

/-! ### CORS header lemmas -/

theorem keysNodup_addMethods (c : CorsOptions) (h : Headers) (hn : keysNodup h) :
    keysNodup (addMethods c h) := by
  unfold addMethods
  cases c.methods with
  | none => exact hn
  | some m =>
    dsimp only
    by_cases ht : m.truthy = true
    · rw [if_pos ht]; exact keysNodup_headersSet h _ _ hn
    · rw [if_neg ht]; exact hn

theorem keysNodup_addAllowedHeaders (c : CorsOptions) (h : Headers) (hn : keysNodup h) :
    keysNodup (addAllowedHeaders c h) := by
  unfold addAllowedHeaders
  cases c.allowedHeaders with
  | none => exact hn
  | some m =>
    dsimp only
    by_cases ht : m.truthy = true
    · rw [if_pos ht]; exact keysNodup_headersSet h _ _ hn
    · rw [if_neg ht]; exact hn

theorem keysNodup_addExposedHeaders (c : CorsOptions) (h : Headers) (hn : keysNodup h) :
    keysNodup (addExposedHeaders c h) := by
  unfold addExposedHeaders
  cases c.exposedHeaders with
  | none => exact hn
  | some m =>
    dsimp only
    by_cases ht : m.truthy = true
    · rw [if_pos ht]; exact keysNodup_headersSet h _ _ hn
    · rw [if_neg ht]; exact hn

theorem keysNodup_addCredentials (c : CorsOptions) (h : Headers) (hn : keysNodup h) :
    keysNodup (addCredentials c h) := by
  unfold addCredentials
  by_cases hc : c.credentials = true
  · rw [if_pos hc]; exact keysNodup_headersSet h _ _ hn
  · rw [if_neg hc]; exact hn

theorem keysNodup_addMaxAge (c : CorsOptions) (h : Headers) (hn : keysNodup h) :
    keysNodup (addMaxAge c h) := by
  unfold addMaxAge
  cases c.maxAge with
  | none => exact hn
  | some n =>
    dsimp only
    exact keysNodup_headersSet h _ _ hn

theorem keysNodup_base (cors : Option CorsOptions) : keysNodup (baseCorsHeaders cors) := by
  unfold baseCorsHeaders
  cases cors with
  | none => simp [keysNodup]
  | some c =>
    apply keysNodup_addMaxAge
    apply keysNodup_addCredentials
    apply keysNodup_addExposedHeaders
    apply keysNodup_addAllowedHeaders
    apply keysNodup_addMethods
    simp [keysNodup]

theorem addMethods_get_ne (c : CorsOptions) (h : Headers) {k : String}
    (hk : k ≠ "access-control-allow-methods") :
    assocGet (addMethods c h) k = assocGet h k := by
  unfold addMethods
  cases c.methods with
  | none => rfl
  | some m =>
    dsimp only
    by_cases ht : m.truthy = true
    · rw [if_pos ht]
      exact headersSet_get_ne h _ (by simpa using hk) _
    · rw [if_neg ht]

theorem addAllowedHeaders_get_ne (c : CorsOptions) (h : Headers) {k : String}
    (hk : k ≠ "access-control-allow-headers") :
    assocGet (addAllowedHeaders c h) k = assocGet h k := by
  unfold addAllowedHeaders
  cases c.allowedHeaders with
  | none => rfl
  | some m =>
    dsimp only
    by_cases ht : m.truthy = true
    · rw [if_pos ht]
      exact headersSet_get_ne h _ (by simpa using hk) _
    · rw [if_neg ht]

theorem addExposedHeaders_get_ne (c : CorsOptions) (h : Headers) {k : String}
    (hk : k ≠ "access-control-expose-headers") :
    assocGet (addExposedHeaders c h) k = assocGet h k := by
  unfold addExposedHeaders
  cases c.exposedHeaders with
  | none => rfl
  | some m =>
    dsimp only
    by_cases ht : m.truthy = true
    · rw [if_pos ht]
      exact headersSet_get_ne h _ (by simpa using hk) _
    · rw [if_neg ht]

theorem addCredentials_get_ne (c : CorsOptions) (h : Headers) {k : String}
    (hk : k ≠ "access-control-allow-credentials") :
    assocGet (addCredentials c h) k = assocGet h k := by
  unfold addCredentials
  by_cases hc : c.credentials = true
  · rw [if_pos hc]
    exact headersSet_get_ne h _ (by simpa using hk) _
  · rw [if_neg hc]

theorem addMaxAge_get_ne (c : CorsOptions) (h : Headers) {k : String}
    (hk : k ≠ "access-control-max-age") :
    assocGet (addMaxAge c h) k = assocGet h k := by
  unfold addMaxAge
  cases c.maxAge with
  | none => rfl
  | some n =>
    dsimp only
    exact headersSet_get_ne h _ (by simpa using hk) _

/-- The base CORS headers never contain `access-control-allow-origin`: that
header is only computed per request. -/
theorem base_allow_origin_none (cors : Option CorsOptions) :
    assocGet (baseCorsHeaders cors) "access-control-allow-origin" = none := by
  unfold baseCorsHeaders
  cases cors with
  | none => rfl
  | some c =>
    rw [addMaxAge_get_ne c _ (by decide), addCredentials_get_ne c _ (by decide),
      addExposedHeaders_get_ne c _ (by decide), addAllowedHeaders_get_ne c _ (by decide),
      addMethods_get_ne c _ (by decide)]
    rfl

/-- When the policy's `allowedHeaders` field is falsy, the base headers do
not contain `access-control-allow-headers`. -/
theorem base_allow_headers_none (c : CorsOptions)
    (hc : ¬ optTruthy c.allowedHeaders = true) :
    assocGet (baseCorsHeaders (some c)) "access-control-allow-headers" = none := by
  unfold baseCorsHeaders
  rw [addMaxAge_get_ne c _ (by decide), addCredentials_get_ne c _ (by decide),
    addExposedHeaders_get_ne c _ (by decide)]
  unfold addAllowedHeaders
  have hnone : ∀ m, c.allowedHeaders = some m → ¬ m.truthy = true := by
    intro m hm hmt
    apply hc
    rw [hm]
    exact hmt
  cases hm : c.allowedHeaders with
  | none =>
    dsimp only
    rw [addMethods_get_ne c _ (by decide)]
    rfl
  | some m =>
    dsimp only
    rw [if_neg (hnone m hm), addMethods_get_ne c _ (by decide)]
    rfl

theorem originHeaderAdd_get_ne (o : OriginSetting) (ro : Option String) (base : Headers)
    {k : String} (hk : k ≠ "access-control-allow-origin") :
    assocGet (originHeaderAdd o ro base) k = assocGet base k := by
  unfold originHeaderAdd
  cases o with
  | str s => exact headersSet_get_ne base _ (by simpa using hk) _
  | bool b =>
    dsimp only
    by_cases ht : headerValTruthy ro = true
    · rw [if_pos ht]
      exact headersSet_get_ne base _ (by simpa using hk) _
    · rw [if_neg ht]
  | list l =>
    dsimp only
    by_cases ht : (headerValTruthy ro = true ∧ l.contains (ro.getD "") = true)
    · rw [if_pos ht]
      exact headersSet_get_ne base _ (by simpa using hk) _
    · rw [if_neg ht]

theorem reflectAllowedHeaders_get_ne (c : CorsOptions) (racrh : Option String) (h : Headers)
    {k : String} (hk : k ≠ "access-control-allow-headers") :
    assocGet (reflectAllowedHeaders c racrh h) k = assocGet h k := by
  unfold reflectAllowedHeaders
  by_cases hr : (¬ optTruthy c.allowedHeaders = true ∧ headerValTruthy racrh = true)
  · rw [if_pos hr]
    exact headersSet_get_ne h _ (by simpa using hk) _
  · rw [if_neg hr]

theorem keysNodup_originHeaderAdd (o : OriginSetting) (ro : Option String) (base : Headers)
    (hn : keysNodup base) : keysNodup (originHeaderAdd o ro base) := by
  unfold originHeaderAdd
  cases o with
  | str s => exact keysNodup_headersSet base _ _ hn
  | bool b =>
    dsimp only
    by_cases ht : headerValTruthy ro = true
    · rw [if_pos ht]; exact keysNodup_headersSet base _ _ hn
    · rw [if_neg ht]; exact hn
  | list l =>
    dsimp only
    by_cases ht : (headerValTruthy ro = true ∧ l.contains (ro.getD "") = true)
    · rw [if_pos ht]; exact keysNodup_headersSet base _ _ hn
    · rw [if_neg ht]; exact hn

theorem keysNodup_reflectAllowedHeaders (c : CorsOptions) (racrh : Option String)
    (h : Headers) (hn : keysNodup h) : keysNodup (reflectAllowedHeaders c racrh h) := by
  unfold reflectAllowedHeaders
  by_cases hr : (¬ optTruthy c.allowedHeaders = true ∧ headerValTruthy racrh = true)
  · rw [if_pos hr]; exact keysNodup_headersSet h _ _ hn
  · rw [if_neg hr]; exact hn

theorem keysNodup_requestCors (cors : Option CorsOptions) (eh : Headers) :
    keysNodup (requestCorsHeaders cors eh) := by
  unfold requestCorsHeaders
  cases cors with
  | none => exact keysNodup_base none
  | some c =>
    dsimp only
    cases c.origin with
    | none => exact keysNodup_base (some c)
    | some o =>
      dsimp only
      by_cases ht : o.truthy = true
      · rw [if_pos ht]
        exact keysNodup_reflectAllowedHeaders c _ _
          (keysNodup_originHeaderAdd o _ _ (keysNodup_base (some c)))
      · rw [if_neg ht]
        exact keysNodup_base (some c)

/-- Every entry of the base CORS headers survives into the request-specific
CORS headers: the per-request extensions only touch keys the base does not
bind. -/
theorem requestCors_preserves (cors : Option CorsOptions) (eh : Headers) {k v : String}
    (hbv : assocGet (baseCorsHeaders cors) k = some v) :
    assocGet (requestCorsHeaders cors eh) k = some v := by
  unfold requestCorsHeaders
  cases cors with
  | none => exact hbv
  | some c =>
    dsimp only
    cases c.origin with
    | none => exact hbv
    | some o =>
      dsimp only
      by_cases ht : o.truthy = true
      · rw [if_pos ht]
        have hko : k ≠ "access-control-allow-origin" := by
          intro hc

          rw [hc, base_allow_origin_none (some c)] at hbv
          exact Option.noConfusion hbv
        by_cases hr : (¬ optTruthy c.allowedHeaders = true ∧
            headerValTruthy (eh.get "access-control-request-headers") = true)
        · have hkh : k ≠ "access-control-allow-headers" := by
            intro hc
            rw [hc, base_allow_headers_none c hr.1] at hbv
            exact Option.noConfusion hbv
          rw [reflectAllowedHeaders_get_ne c _ _ hkh, originHeaderAdd_get_ne o _ _ hko]
          exact hbv
        · unfold reflectAllowedHeaders
          rw [if_neg hr, originHeaderAdd_get_ne o _ _ hko]
          exact hbv
      · rw [if_neg ht]
        exact hbv

/-- A literal-string origin policy (truthy, i.e. non-empty) is used
verbatim as `access-control-allow-origin`. -/
theorem requestCors_origin_str (c : CorsOptions) (s : String) (eh : Headers)
    (hor : c.origin = some (.str s)) (hs : s ≠ "") :
    assocGet (requestCorsHeaders (some c) eh) "access-control-allow-origin" = some s := by
  unfold requestCorsHeaders
  dsimp only
  rw [hor]
  dsimp only
  rw [if_pos (show (OriginSetting.str s).truthy = true by simp [OriginSetting.truthy, hs]),
    reflectAllowedHeaders_get_ne c _ _ (by decide)]
  unfold originHeaderAdd
  simp [Headers.set, assocGet_set_self]

/-- An `origin: true` policy reflects a truthy request Origin header. -/
theorem requestCors_origin_bool_reflect (c : CorsOptions) (eh : Headers)
    (hor : c.origin = some (.bool true))
    (hro : headerValTruthy (eh.get "origin") = true) :
    assocGet (requestCorsHeaders (some c) eh) "access-control-allow-origin" =
      some ((eh.get "origin").getD "") := by
  unfold requestCorsHeaders
  dsimp only
  rw [hor]
  dsimp only
  rw [if_pos (show (OriginSetting.bool true).truthy = true by rfl),
    reflectAllowedHeaders_get_ne c _ _ (by decide)]
  unfold originHeaderAdd
  dsimp only
  rw [if_pos hro]
  simp [Headers.set, assocGet_set_self]

/-- An `origin: true` policy leaves `access-control-allow-origin` unset when
the request carries no (truthy) Origin header. -/
theorem requestCors_origin_bool_absent (c : CorsOptions) (eh : Headers)
    (hor : c.origin = some (.bool true))
    (hro : ¬ headerValTruthy (eh.get "origin") = true) :
    assocGet (requestCorsHeaders (some c) eh) "access-control-allow-origin" = none := by
  unfold requestCorsHeaders
  dsimp only
  rw [hor]
  dsimp only
  rw [if_pos (show (OriginSetting.bool true).truthy = true by rfl),
    reflectAllowedHeaders_get_ne c _ _ (by decide)]
  unfold originHeaderAdd
  dsimp only
  rw [if_neg hro]
  exact base_allow_origin_none (some c)

/-- A list policy reflects a truthy request Origin that is in the list. -/
theorem requestCors_origin_list_mem (c : CorsOptions) (l : List String) (eh : Headers)
    (hor : c.origin = some (.list l))
    (hro : headerValTruthy (eh.get "origin") = true ∧
      l.contains ((eh.get "origin").getD "") = true) :
    assocGet (requestCorsHeaders (some c) eh) "access-control-allow-origin" =
      some ((eh.get "origin").getD "") := by
  unfold requestCorsHeaders
  dsimp only
  rw [hor]
  dsimp only
  rw [if_pos (show (OriginSetting.list l).truthy = true by rfl),
    reflectAllowedHeaders_get_ne c _ _ (by decide)]
  unfold originHeaderAdd
  dsimp only
  rw [if_pos hro]
  simp [Headers.set, assocGet_set_self]

/-- A list policy leaves `access-control-allow-origin` unset when the request
Origin is absent, empty, or not in the list. -/
theorem requestCors_origin_list_other (c : CorsOptions) (l : List String) (eh : Headers)
    (hor : c.origin = some (.list l))
    (hro : ¬ (headerValTruthy (eh.get "origin") = true ∧
      l.contains ((eh.get "origin").getD "") = true)) :
    assocGet (requestCorsHeaders (some c) eh) "access-control-allow-origin" = none := by
  unfold requestCorsHeaders
  dsimp only
  rw [hor]
  dsimp only
  rw [if_pos (show (OriginSetting.list l).truthy = true by rfl),
    reflectAllowedHeaders_get_ne c _ _ (by decide)]
  unfold originHeaderAdd
  dsimp only
  rw [if_neg hro]
  exact base_allow_origin_none (some c)

/-! ### Handler branch lemmas -/

/-- Identity of the reduce-to-object conversion on the request CORS headers,
whose keys are pairwise distinct. -/
theorem objFromEntries_requestCors (cors : Option CorsOptions) (eh : Headers) :
    objFromEntries (requestCorsHeaders cors eh) = requestCorsHeaders cors eh :=
  objFromEntries_eq _ (keysNodup_requestCors cors eh)

/-- The OPTIONS preflight branch: both modes deliver a 204 with empty body
and exactly the request-specific CORS headers. -/
theorem delivered_options (cfg : HandlerConfig) (c : Collab) (async : Bool)
    (event : HttpEvent) (hm : event.httpMethod = "OPTIONS") :
    deliveredResponse (createHandler cfg c async event) =
      .ok { body := "", statusCode := 204,
            headers := objFromEntries (requestCorsHeaders cfg.cors (Headers.ofRaw event.headers)) } := by
  unfold createHandler
  dsimp only
  rw [if_pos hm]
  cases async <;> simp [deliveredResponse]

/-- The playground tool-page branch: both modes deliver a 200 whose body is
the rendered page at the computed endpoint, with `Content-Type: text/html`
and the CORS headers spread over it. -/
theorem delivered_toolpage (cfg : HandlerConfig) (c : Collab) (async : Bool)
    (event : HttpEvent) (hp : cfg.playgroundOptions = true)
    (hg : event.httpMethod = "GET") (ha : toolPageAccept event = true) :
    deliveredResponse (createHandler cfg c async event) =
      .ok { body := c.renderPlaygroundPage (endpointPath event)
            statusCode := 200
            headers := spread [("Content-Type", "text/html")]
              (objFromEntries (requestCorsHeaders cfg.cors (Headers.ofRaw event.headers))) } := by
  unfold createHandler
  dsimp only
  rw [if_neg (show ¬ event.httpMethod = "OPTIONS" by rw [hg]; decide),
    if_pos (show cfg.playgroundOptions = true ∧ event.httpMethod = "GET" ∧
      toolPageAccept event = true from ⟨hp, hg, ha⟩)]
  cases async <;> simp [deliveredResponse]

/-- The primary path: both modes deliver whatever `mainPath` produces. -/
theorem delivered_main (cfg : HandlerConfig) (c : Collab) (async : Bool)
    (event : HttpEvent) (h1 : ¬ event.httpMethod = "OPTIONS")
    (h2 : ¬ (cfg.playgroundOptions = true ∧ event.httpMethod = "GET" ∧
      toolPageAccept event = true)) :
    deliveredResponse (createHandler cfg c async event) =
      mainPath c event (Headers.ofRaw event.headers)
        (objFromEntries (requestCorsHeaders cfg.cors (Headers.ofRaw event.headers))) := by
  unfold createHandler
  dsimp only
  rw [if_neg h1, if_neg h2]
  cases async with
  | true => rfl
  | false =>
    cases hmp : mainPath c event (Headers.ofRaw event.headers)
        (objFromEntries (requestCorsHeaders cfg.cors (Headers.ofRaw event.headers))) with
    | ok r => simp [deliveredResponse]
    | error e => simp [deliveredResponse]

/-- When the content-type is not multipart (or absent), upload
pre-processing leaves the body untouched. -/
theorem handleFileUploads_passthrough (c : Collab) (event : HttpEvent) (eh : Headers)
    (hct : ¬ (headerValTruthy (eh.get "content-type") = true ∧
      strStartsWith ((eh.get "content-type").getD "") "multipart/form-data" = true)) :
    handleFileUploads c event eh = .ok event.body := by
  unfold handleFileUploads
  cases c.processFileUploads with
  | none => rfl
  | some f =>
    cases hb : event.body with
    | none => rfl
    | some b =>
      dsimp only
      rw [if_neg hct]

/-! ### Claim theorems -/

/-- Claim C5: for every OPTIONS request, in both delivery modes, the
response is status 204 with empty body and exactly the request-specific
CORS headers and no others; the right-hand side mentions no engine
collaborator, so no engine interaction or startup wait is involved. -/
theorem claim_C5_options_preflight (cfg : HandlerConfig) (c : Collab) (async : Bool)
    (event : HttpEvent) (hm : event.httpMethod = "OPTIONS") :
    deliveredResponse (createHandler cfg c async event) =
      .ok { body := "", statusCode := 204,
            headers := requestCorsHeaders cfg.cors (Headers.ofRaw event.headers) } := by
  rw [delivered_options cfg c async event hm, objFromEntries_requestCors]

/-- Claim C5 witness at a concrete OPTIONS event. -/
theorem claim_C5_witness :
    ({ httpMethod := "OPTIONS", headers := [("Origin", "http://a.example")] } :
        HttpEvent).httpMethod = "OPTIONS" ∧
    deliveredResponse (createHandler wCfg wCollabFatal true
        { httpMethod := "OPTIONS", headers := [("Origin", "http://a.example")] }) =
      .ok { body := "", statusCode := 204,
            headers := requestCorsHeaders wCfg.cors
              (Headers.ofRaw [("Origin", "http://a.example")]) } :=
  ⟨rfl, claim_C5_options_preflight wCfg wCollabFatal true
    { httpMethod := "OPTIONS", headers := [("Origin", "http://a.example")] } rfl⟩

/-- Claim C9: for every event, the callback-delivery mode and the
promise-delivery mode deliver the identical response (status, body and
headers), differing only in the delivery mechanism. -/
theorem claim_C9_modes_agree (cfg : HandlerConfig) (c : Collab) (event : HttpEvent) :
    deliveredResponse (createHandler cfg c true event) =
      deliveredResponse (createHandler cfg c false event) := by
  by_cases h1 : event.httpMethod = "OPTIONS"
  · rw [delivered_options cfg c true event h1, delivered_options cfg c false event h1]
  · by_cases h2 : (cfg.playgroundOptions = true ∧ event.httpMethod = "GET" ∧
        toolPageAccept event = true)
    · rw [delivered_toolpage cfg c true event h2.1 h2.2.1 h2.2.2,
        delivered_toolpage cfg c false event h2.1 h2.2.1 h2.2.2]
    · rw [delivered_main cfg c true event h1 h2, delivered_main cfg c false event h1 h2]

/-- Claim C6 counterexample: with an empty `path`, the tool page renders
with endpoint "/" (the fallback), not the request path "" — so the claim's
"the endpoint passed to the renderer equals the request path" fails at
`path = ""`. -/
theorem claim_C6_counterexample :
    (match deliveredResponse (createHandler { cors := none, playgroundOptions := true }
        wCollab true { httpMethod := "GET", path := "", headers := [("Accept", "text/html")] }) with
      | .ok r => r.body
      | .error _ => "") = "HTML@/"
    ∧ wCollab.renderPlaygroundPage "" ≠ "HTML@/" := by
  constructor
  · rfl
  · decide

/-- Claim C6 (amended): for a GET request with the playground configured,
the Accept header found under exactly the spellings `Accept`/`accept`
containing text/html, and a non-empty request path, the response is 200
with Content-Type text/html plus CORS headers, the body is the rendered
tool page, and the endpoint passed to the renderer is the request path
(when the path is empty the C10 fallback applies instead); the right-hand
side mentions no engine collaborator. -/
theorem claim_C6_toolpage (cfg : HandlerConfig) (c : Collab) (async : Bool)
    (event : HttpEvent) (hp : cfg.playgroundOptions = true)
    (hg : event.httpMethod = "GET") (ha : toolPageAccept event = true)
    (hpath : event.path ≠ "") :
    deliveredResponse (createHandler cfg c async event) =
      .ok { body := c.renderPlaygroundPage event.path,
            statusCode := 200,
            headers := spread [("Content-Type", "text/html")]
              (requestCorsHeaders cfg.cors (Headers.ofRaw event.headers)) } := by
  rw [delivered_toolpage cfg c async event hp hg ha, objFromEntries_requestCors]
  have hep : endpointPath event = event.path := by
    unfold endpointPath
    rw [if_pos hpath]
  rw [hep]

/-- Claim C6 witness at a concrete GET event with a html-accepting header. -/
theorem claim_C6_witness :
    toolPageAccept { httpMethod := "GET", path := "/gql",
                     headers := [("accept", "text/html,application/xhtml")] } = true ∧
    deliveredResponse (createHandler wCfg wCollabFatal false
        { httpMethod := "GET", path := "/gql",
          headers := [("accept", "text/html,application/xhtml")] }) =
      .ok { body := wCollabFatal.renderPlaygroundPage "/gql",
            statusCode := 200,
            headers := spread [("Content-Type", "text/html")]
              (requestCorsHeaders wCfg.cors
                (Headers.ofRaw [("accept", "text/html,application/xhtml")])) } :=
  ⟨by decide, claim_C6_toolpage wCfg wCollabFatal false
    { httpMethod := "GET", path := "/gql",
      headers := [("accept", "text/html,application/xhtml")] }
    rfl rfl (by decide) (by decide)⟩

/-- Claim C10: in the tool-page branch with an empty `path`, the endpoint
falls back to the requestContext path, and to "/" when that is absent or
empty, and the page is still served with status 200. -/
theorem claim_C10_endpoint_fallback (cfg : HandlerConfig) (c : Collab) (async : Bool)
    (event : HttpEvent) (hp : cfg.playgroundOptions = true)
    (hg : event.httpMethod = "GET") (ha : toolPageAccept event = true)
    (hpath : event.path = "") :
    deliveredResponse (createHandler cfg c async event) =
      .ok { body := c.renderPlaygroundPage (endpointPath event),
            statusCode := 200,
            headers := spread [("Content-Type", "text/html")]
              (requestCorsHeaders cfg.cors (Headers.ofRaw event.headers)) } ∧
    (∀ p, event.requestContextPath = some p → p ≠ "" → endpointPath event = p) ∧
    (event.requestContextPath = some "" → endpointPath event = "/") ∧
    (event.requestContextPath = none → endpointPath event = "/") := by
  refine ⟨?_, ?_, ?_, ?_⟩
  · rw [delivered_toolpage cfg c async event hp hg ha, objFromEntries_requestCors]
  · intro p hrc hpne
    unfold endpointPath
    rw [if_neg (by simp [hpath]), hrc]
    dsimp only
    rw [if_pos hpne]
  · intro hrc
    unfold endpointPath
    rw [if_neg (by simp [hpath]), hrc]
    dsimp only
    rw [if_neg (by simp)]
  · intro hrc
    unfold endpointPath
    rw [if_neg (by simp [hpath]), hrc]

/-- Claim C10 witness: empty path with a requestContext path. -/
theorem claim_C10_witness :
    deliveredResponse (createHandler wCfg wCollab true
        { httpMethod := "GET", path := "", headers := [("Accept", "text/html")],
          requestContextPath := some "/stage/gql" }) =
      .ok { body := wCollab.renderPlaygroundPage
              (endpointPath { httpMethod := "GET", path := "",
                              headers := [("Accept", "text/html")],
                              requestContextPath := some "/stage/gql" }),
            statusCode := 200,
            headers := spread [("Content-Type", "text/html")]
              (requestCorsHeaders wCfg.cors (Headers.ofRaw [("Accept", "text/html")])) } ∧
    endpointPath { httpMethod := "GET", path := "", headers := [("Accept", "text/html")],
                   requestContextPath := some "/stage/gql" } = "/stage/gql" := by
  have h := claim_C10_endpoint_fallback wCfg wCollab true
    { httpMethod := "GET", path := "", headers := [("Accept", "text/html")],
        requestContextPath := some "/stage/gql" } rfl rfl (by decide) rfl
  exact ⟨h.1, h.2.1 "/stage/gql" rfl (by decide)⟩

/-- Claim C2 counterexample: with the literal (but empty, hence JS-falsy)
string origin policy `""`, the computed `access-control-allow-origin` is
omitted rather than equal to the literal, refuting "equals S regardless of
the request's Origin header" at `S = ""`. -/
theorem claim_C2_counterexample :
    assocGet (requestCorsHeaders (some { origin := some (.str "") })
        (Headers.ofRaw [("Origin", "http://a.example")]))
      "access-control-allow-origin" ≠ some "" := by
  decide

/-- Claim C2 (amended): the computed `access-control-allow-origin` follows
the policy with JS truthiness: a non-empty literal string is used verbatim
(an empty literal is falsy and yields no header); `origin: true` reflects a
present non-empty request Origin and omits the header otherwise — in
particular a present-but-empty Origin value is treated as absent; a list
policy reflects a present non-empty request Origin exactly when it is in
the list and omits the header otherwise, again treating an empty Origin
value as absent even when the list contains the empty string. -/
theorem claim_C2_allow_origin (c : CorsOptions) (eh : Headers) :
    (∀ s, c.origin = some (.str s) → s ≠ "" →
      assocGet (requestCorsHeaders (some c) eh) "access-control-allow-origin" = some s) ∧
    (∀ s, c.origin = some (.str s) → s = "" →
      assocGet (requestCorsHeaders (some c) eh) "access-control-allow-origin" = none) ∧
    (c.origin = some (.bool true) →
      (∀ x, eh.get "origin" = some x → x ≠ "" →
        assocGet (requestCorsHeaders (some c) eh) "access-control-allow-origin" = some x) ∧
      (eh.get "origin" = none →
        assocGet (requestCorsHeaders (some c) eh) "access-control-allow-origin" = none) ∧
      (eh.get "origin" = some "" →
        assocGet (requestCorsHeaders (some c) eh) "access-control-allow-origin" = none)) ∧
    (∀ l, c.origin = some (.list l) →
      (∀ x, eh.get "origin" = some x → x ≠ "" → l.contains x = true →
        assocGet (requestCorsHeaders (some c) eh) "access-control-allow-origin" = some x) ∧
      (∀ x, eh.get "origin" = some x → l.contains x = false →
        assocGet (requestCorsHeaders (some c) eh) "access-control-allow-origin" = none) ∧
      (eh.get "origin" = none →
        assocGet (requestCorsHeaders (some c) eh) "access-control-allow-origin" = none) ∧
      (eh.get "origin" = some "" →
        assocGet (requestCorsHeaders (some c) eh) "access-control-allow-origin" = none)) := by
  refine ⟨?_, ?_, ?_, ?_⟩
  · intro s hor hs
    exact requestCors_origin_str c s eh hor hs
  · intro s hor hs
    subst hs
    unfold requestCorsHeaders
    dsimp only
    rw [hor]
    dsimp only
    rw [if_neg (by decide)]
    exact base_allow_origin_none (some c)
  · intro hor
    refine ⟨?_, ?_, ?_⟩
    · intro x hx hxne
      have hro : headerValTruthy (eh.get "origin") = true := by
        rw [hx]
        simp [headerValTruthy, hxne]
      have h := requestCors_origin_bool_reflect c eh hor hro
      rw [hx] at h
      exact h
    · intro hx
      refine requestCors_origin_bool_absent c eh hor ?_
      rw [hx]
      decide
    · intro hx
      refine requestCors_origin_bool_absent c eh hor ?_
      rw [hx]
      decide
  · intro l hor
    refine ⟨?_, ?_, ?_, ?_⟩
    · intro x hx hxne hmem
      have hro : headerValTruthy (eh.get "origin") = true ∧
          l.contains ((eh.get "origin").getD "") = true := by
        rw [hx]
        exact ⟨by simp [headerValTruthy, hxne], by simpa using hmem⟩
      have h := requestCors_origin_list_mem c l eh hor hro
      rw [hx] at h
      exact h
    · intro x hx hmem
      refine requestCors_origin_list_other c l eh hor ?_
      rw [hx]
      intro hc
      have h2 := hc.2
      simp only [Option.getD_some] at h2
      rw [hmem] at h2
      exact Bool.noConfusion h2
    · intro hx
      refine requestCors_origin_list_other c l eh hor ?_
      rw [hx]
      intro hc
      exact Bool.noConfusion hc.1
    · intro hx
      refine requestCors_origin_list_other c l eh hor ?_
      rw [hx]
      intro hc
      have h1 := hc.1
      simp [headerValTruthy] at h1

/-- Claim C2 witness: one concrete instance of each origin-policy shape,
plus a present-but-empty Origin against a list containing the empty
string. -/
theorem claim_C2_witness :
    assocGet (requestCorsHeaders (some { origin := some (.str "http://s.example") }) [])
      "access-control-allow-origin" = some "http://s.example" ∧
    assocGet (requestCorsHeaders (some { origin := some (.bool true) })
        (Headers.ofRaw [("Origin", "http://a.example")]))
      "access-control-allow-origin" = some "http://a.example" ∧
    assocGet (requestCorsHeaders (some { origin := some (.list ["http://a.example"]) })
        (Headers.ofRaw [("Origin", "http://b.example")]))
      "access-control-allow-origin" = none ∧
    assocGet (requestCorsHeaders (some { origin := some (.list [""]) })
        (Headers.ofRaw [("Origin", "")]))
      "access-control-allow-origin" = none := by
  refine ⟨?_, ?_, ?_, ?_⟩
  · exact (claim_C2_allow_origin { origin := some (.str "http://s.example") } []).1
      "http://s.example" rfl (by decide)
  · exact ((claim_C2_allow_origin { origin := some (.bool true) }
      (Headers.ofRaw [("Origin", "http://a.example")])).2.2.1 rfl).1
      "http://a.example" (by decide) (by decide)
  · exact ((claim_C2_allow_origin { origin := some (.list ["http://a.example"]) }
      (Headers.ofRaw [("Origin", "http://b.example")])).2.2.2 ["http://a.example"]
      rfl).2.1 "http://b.example" (by decide) (by decide)
  · exact ((claim_C2_allow_origin { origin := some (.list [""]) }
      (Headers.ofRaw [("Origin", "")])).2.2.2 [""] rfl).2.2.2 (by decide)

/-- Claim C1: every header present in the adapter instance's base CORS
policy headers appears, with its value, in the headers of every
HttpResponse the handler delivers — OPTIONS preflight, tool page,
successful execution, and structured-error mapping alike (error outcomes
deliver no response). -/
theorem claim_C1_base_cors_everywhere (cfg : HandlerConfig) (c : Collab) (async : Bool)
    (event : HttpEvent) (k v : String)
    (hb : assocGet (baseCorsHeaders cfg.cors) k = some v) :
    respHeaderHas (deliveredResponse (createHandler cfg c async event)) k v = true := by
  have hobj : assocGet (objFromEntries (requestCorsHeaders cfg.cors
      (Headers.ofRaw event.headers))) k = some v := by
    rw [objFromEntries_requestCors]
    exact requestCors_preserves cfg.cors (Headers.ofRaw event.headers) hb
  by_cases h1 : event.httpMethod = "OPTIONS"
  · rw [delivered_options cfg c async event h1]
    simp [respHeaderHas, hobj]
  · by_cases h2 : (cfg.playgroundOptions = true ∧ event.httpMethod = "GET" ∧
        toolPageAccept event = true)
    · rw [delivered_toolpage cfg c async event h2.1 h2.2.1 h2.2.2]
      simp [respHeaderHas, spread_get_right _ _ hobj]
    · rw [delivered_main cfg c async event h1 h2]
      unfold mainPath
      cases c.willStart with
      | error e => simp [respHeaderHas]
      | ok u =>
        dsimp only
        cases handleFileUploads c event (Headers.ofRaw event.headers) with
        | error e => simp [respHeaderHas]
        | ok nb =>
          dsimp only
          cases c.buildOptions with
          | error e => simp [respHeaderHas]
          | ok u2 =>
            dsimp only
            unfold corsMerge
            cases graphqlLambdaRun c { event with body := nb } with
            | error e => simp [respHeaderHas]
            | ok r =>
              dsimp only
              simp [respHeaderHas, spread_get_right _ _ hobj]

/-- Claim C1 witness: a configured method list shows up in a successful
execution response on the primary path. -/
theorem claim_C1_witness :
    assocGet (baseCorsHeaders wCfg.cors) "access-control-allow-methods" = some "GET,POST" ∧
    respHeaderHas (deliveredResponse (createHandler wCfg wCollab false
        { httpMethod := "POST", body := some (.str "q") }))
      "access-control-allow-methods" "GET,POST" = true :=
  ⟨by decide, claim_C1_base_cors_everywhere wCfg wCollab false
    { httpMethod := "POST", body := some (.str "q") }
    "access-control-allow-methods" "GET,POST" (by decide)⟩

/-- Claim C3: the execution bridge on a POST request returns 500 with
"POST body missing." when the body is empty or absent; returns 415 with
"Error parsing JSON POST body" when the content-type starts with
application/json and the body does not parse; and for any other (or
absent) content-type hands the raw string body unmodified to the engine as
the query payload. -/
theorem claim_C3_bridge (c : Collab) (event : HttpEvent)
    (hm : event.httpMethod = "POST") :
    (¬ bodyTruthy event.body = true →
      graphqlLambdaRun c event = .ok { body := "POST body missing.", statusCode := 500 }) ∧
    (∀ s, event.body = some (.str s) → s ≠ "" →
      ((headerValTruthy ((Headers.ofRaw event.headers).get "content-type") = true ∧
        strStartsWith (((Headers.ofRaw event.headers).get "content-type").getD "")
          "application/json" = true) →
        c.jsonParse s = none →
        graphqlLambdaRun c event =
          .ok { body := "Error parsing JSON POST body", statusCode := 415 }) ∧
      (¬ (headerValTruthy ((Headers.ofRaw event.headers).get "content-type") = true ∧
        strStartsWith (((Headers.ofRaw event.headers).get "content-type").getD "")
          "application/json" = true) →
        graphqlLambdaRun c event = engineMap (c.runHttpQuery (.body (.str s)) event))) := by
  constructor
  · intro hnb
    unfold graphqlLambdaRun
    rw [if_pos ⟨hm, hnb⟩]
  · intro s hb hsne
    have htr : bodyTruthy event.body = true := by
      rw [hb]
      simp [bodyTruthy, BodyVal.truthy, hsne]
    constructor
    · intro hct hjs
      have hex : extractQuery c.jsonParse event =
          .error { body := "Error parsing JSON POST body", statusCode := 415 } := by
        unfold extractQuery
        dsimp only
        rw [if_pos ⟨hm, htr⟩, hb]
        dsimp only
        rw [if_pos hct]
        dsimp only [BodyVal.asString]
        rw [hjs]
      unfold graphqlLambdaRun
      rw [if_neg (fun hcon => hcon.2 htr), hex]
    · intro hct
      have hex : extractQuery c.jsonParse event = .ok (.body (.str s)) := by
        unfold extractQuery
        dsimp only
        rw [if_pos ⟨hm, htr⟩, hb]
        dsimp only
        rw [if_neg hct]
      unfold graphqlLambdaRun
      rw [if_neg (fun hcon => hcon.2 htr), hex]

/-- Claim C3 witness: missing body, unparsable JSON body, and raw non-JSON
passthrough at concrete POST events. -/
theorem claim_C3_witness :
    graphqlLambdaRun wCollab { httpMethod := "POST" } =
      .ok { body := "POST body missing.", statusCode := 500 } ∧
    graphqlLambdaRun wCollab { httpMethod := "POST", body := some (.str "\x7b"), headers := [("Content-Type", "application/json")] } =
      .ok { body := "Error parsing JSON POST body", statusCode := 415 } ∧
    graphqlLambdaRun wCollab { httpMethod := "POST", body := some (.str "q") } =
      engineMap (wCollab.runHttpQuery (.body (.str "q"))
        { httpMethod := "POST", body := some (.str "q") }) := by
  refine ⟨?_, ?_, ?_⟩
  · exact (claim_C3_bridge wCollab { httpMethod := "POST" } rfl).1 (by decide)
  · exact ((claim_C3_bridge wCollab { httpMethod := "POST", body := some (.str "\x7b"), headers := [("Content-Type", "application/json")] } rfl).2 "\x7b" rfl
      (by decide)).1 (by decide) rfl
  · exact ((claim_C3_bridge wCollab { httpMethod := "POST", body := some (.str "q") }
      rfl).2 "q" rfl (by decide)).2 (by decide)

/-- Claim C7: on the primary path, a non-null body under a
`multipart/form-data` content-type is replaced by the upload processor's
output (computed by the processor from the `Buffer.from` decoding of the
body, base64 when flagged) before the event reaches the execution bridge;
under any other content-type the bridge receives the event with its
original body unchanged. -/
theorem claim_C7_upload_framing (cfg : HandlerConfig) (c : Collab) (async : Bool)
    (event : HttpEvent)
    (h1 : ¬ event.httpMethod = "OPTIONS")
    (h2 : ¬ (cfg.playgroundOptions = true ∧ event.httpMethod = "GET" ∧
      toolPageAccept event = true))
    (hws : c.willStart = .ok ())
    (hbo : c.buildOptions = .ok ()) :
    (∀ f b v, c.processFileUploads = some f → event.body = some b →
      (headerValTruthy ((Headers.ofRaw event.headers).get "content-type") = true ∧
        strStartsWith (((Headers.ofRaw event.headers).get "content-type").getD "")
          "multipart/form-data" = true) →
      f (c.bufferFrom b.asString event.isBase64Encoded) = .ok v →
      deliveredResponse (createHandler cfg c async event) =
        corsMerge (graphqlLambdaRun c { event with body := some (.obj v) })
          (objFromEntries (requestCorsHeaders cfg.cors (Headers.ofRaw event.headers)))) ∧
    (¬ (headerValTruthy ((Headers.ofRaw event.headers).get "content-type") = true ∧
        strStartsWith (((Headers.ofRaw event.headers).get "content-type").getD "")
          "multipart/form-data" = true) →
      deliveredResponse (createHandler cfg c async event) =
        corsMerge (graphqlLambdaRun c event)
          (objFromEntries (requestCorsHeaders cfg.cors (Headers.ofRaw event.headers)))) := by
  constructor
  · intro f b v hf hbod hct hproc
    rw [delivered_main cfg c async event h1 h2]
    unfold mainPath
    rw [hws]
    dsimp only
    have hfu : handleFileUploads c event (Headers.ofRaw event.headers) =
        .ok (some (.obj v)) := by
      unfold handleFileUploads
      rw [hf, hbod]
      dsimp only
      rw [if_pos hct, hproc]
    rw [hfu]
    dsimp only
    rw [hbo]
  · intro hct
    rw [delivered_main cfg c async event h1 h2]
    unfold mainPath
    rw [hws]
    dsimp only
    rw [handleFileUploads_passthrough c event _ hct]
    dsimp only
    rw [hbo]

/-- Claim C7 witness: a multipart body is replaced by the processed object;
a plain body reaches the bridge untouched. -/
theorem claim_C7_witness :
    deliveredResponse (createHandler wCfg wCollab true
        { httpMethod := "POST", body := some (.str "data"), headers := [("Content-Type", "multipart/form-data; boundary=x")] }) =
      corsMerge (graphqlLambdaRun wCollab
          { httpMethod := "POST", body := some (.obj .null), headers := [("Content-Type", "multipart/form-data; boundary=x")] })
        (objFromEntries (requestCorsHeaders wCfg.cors
          (Headers.ofRaw [("Content-Type", "multipart/form-data; boundary=x")]))) ∧
    deliveredResponse (createHandler wCfg wCollab true
        { httpMethod := "POST", body := some (.str "q") }) =
      corsMerge (graphqlLambdaRun wCollab { httpMethod := "POST", body := some (.str "q") })
        (objFromEntries (requestCorsHeaders wCfg.cors (Headers.ofRaw []))) := by
  constructor
  · exact (claim_C7_upload_framing wCfg wCollab true
      { httpMethod := "POST", body := some (.str "data"), headers := [("Content-Type", "multipart/form-data; boundary=x")] }
      (by decide) (by decide) rfl rfl).1
      (fun _ => .ok .null) (.str "data") .null rfl rfl (by decide) rfl
  · exact (claim_C7_upload_framing wCfg wCollab true
      { httpMethod := "POST", body := some (.str "q") }
      (by decide) (by decide) rfl rfl).2 (by decide)

/-- Claim C8: only client request errors and structured query errors are
recovered into responses. A structured query error maps 1:1 to a response
carrying its status, headers (with CORS merged over) and message; an
upload-processing error is formatted through the engine's error formatter
and re-thrown, not converted to a response; any other engine error
propagates uncaught. -/
theorem claim_C8_error_policy (cfg : HandlerConfig) (c : Collab) (async : Bool)
    (event : HttpEvent)
    (h1 : ¬ event.httpMethod = "OPTIONS")
    (h2 : ¬ (cfg.playgroundOptions = true ∧ event.httpMethod = "GET" ∧
      toolPageAccept event = true))
    (hws : c.willStart = .ok ()) :
    (∀ e, handleFileUploads c event (Headers.ofRaw event.headers) = .error e →
      deliveredResponse (createHandler cfg c async event) =
        .error (c.formatApolloErrors e)) ∧
    (∀ nb q st hdrs m, handleFileUploads c event (Headers.ofRaw event.headers) = .ok nb →
      c.buildOptions = .ok () →
      ¬ (event.httpMethod = "POST" ∧ ¬ bodyTruthy nb = true) →
      extractQuery c.jsonParse { event with body := nb } = .ok q →
      c.runHttpQuery q { event with body := nb } = .queryError st hdrs m →
      deliveredResponse (createHandler cfg c async event) =
        .ok { body := m, statusCode := st,
              headers := spread hdrs (objFromEntries (requestCorsHeaders cfg.cors
                (Headers.ofRaw event.headers))) }) ∧
    (∀ nb q er, handleFileUploads c event (Headers.ofRaw event.headers) = .ok nb →
      c.buildOptions = .ok () →
      ¬ (event.httpMethod = "POST" ∧ ¬ bodyTruthy nb = true) →
      extractQuery c.jsonParse { event with body := nb } = .ok q →
      c.runHttpQuery q { event with body := nb } = .fatal er →
      deliveredResponse (createHandler cfg c async event) = .error er) := by
  refine ⟨?_, ?_, ?_⟩
  · intro e hfu
    rw [delivered_main cfg c async event h1 h2]
    unfold mainPath
    rw [hws]
    dsimp only
    rw [hfu]
  · intro nb q st hdrs m hfu hbo hguard hex hrun
    rw [delivered_main cfg c async event h1 h2]
    unfold mainPath
    rw [hws]
    dsimp only
    rw [hfu]
    dsimp only
    rw [hbo]
    dsimp only
    unfold graphqlLambdaRun
    rw [if_neg hguard, hex]
    dsimp only
    rw [hrun]
    rfl
  · intro nb q er hfu hbo hguard hex hrun
    rw [delivered_main cfg c async event h1 h2]
    unfold mainPath
    rw [hws]
    dsimp only
    rw [hfu]
    dsimp only
    rw [hbo]
    dsimp only
    unfold graphqlLambdaRun
    rw [if_neg hguard, hex]
    dsimp only
    rw [hrun]
    rfl

/-- Claim C8 witness: a failing upload processor re-throws a formatted
error; a structured query error becomes a response with its status,
headers and message; an unexpected engine error propagates. -/
theorem claim_C8_witness :
    deliveredResponse (createHandler wCfg wCollabUploadFail true
        { httpMethod := "POST", body := some (.str "data"), headers := [("Content-Type", "multipart/form-data; boundary=x")] }) =
      .error (wCollabUploadFail.formatApolloErrors "upload broke") ∧
    deliveredResponse (createHandler wCfg wCollabQueryError true
        { httpMethod := "POST", body := some (.str "q") }) =
      .ok { body := "denied", statusCode := 403,
            headers := spread [("www-authenticate", "Bearer")]
              (objFromEntries (requestCorsHeaders wCfg.cors (Headers.ofRaw []))) } ∧
    deliveredResponse (createHandler wCfg wCollabFatal true
        { httpMethod := "POST", body := some (.str "q") }) = .error "boom" := by
  refine ⟨?_, ?_, ?_⟩
  · exact (claim_C8_error_policy wCfg wCollabUploadFail true
      { httpMethod := "POST", body := some (.str "data"), headers := [("Content-Type", "multipart/form-data; boundary=x")] }
      (by decide) (by decide) rfl).1 "upload broke" rfl
  · exact (claim_C8_error_policy wCfg wCollabQueryError true
      { httpMethod := "POST", body := some (.str "q") }
      (by decide) (by decide) rfl).2.1 (some (.str "q")) (.body (.str "q"))
      403 [("www-authenticate", "Bearer")] "denied" rfl rfl (by decide) rfl rfl
  · exact (claim_C8_error_policy wCfg wCollabFatal true
      { httpMethod := "POST", body := some (.str "q") }
      (by decide) (by decide) rfl).2.2 (some (.str "q")) (.body (.str "q"))
      "boom" rfl rfl (by decide) rfl rfl

/-- Claim C4 counterexample: the execution branch spreads the CORS headers
over the engine headers, so on a shared key the CORS value survives — the
engine's value for `access-control-allow-methods` is replaced, refuting
"the GraphQL response headers win for the execution branch". -/
theorem claim_C4_counterexample :
    (match deliveredResponse (createHandler wCfgMethods wCollabClash true
        { httpMethod := "POST", body := some (.str "q") }) with
      | .ok r => assocGet r.headers "access-control-allow-methods"
      | .error _ => none) = some "GET,POST" ∧ ("GET,POST" : String) ≠ "ENGINE" :=
  ⟨rfl, by decide⟩

/-- Claim C4 (amended): for a successful execution, engine headers and CORS
headers are both present in the final response: the response headers are
the spread of the CORS headers over the engine headers, every CORS entry is
present, every engine entry on a key the CORS headers do not bind is
present, and on a shared key the CORS value wins (engine headers are
spread first, CORS headers are spread over them). -/
theorem claim_C4_merge_precedence (cfg : HandlerConfig) (c : Collab) (async : Bool)
    (event : HttpEvent)
    (h1 : ¬ event.httpMethod = "OPTIONS")
    (h2 : ¬ (cfg.playgroundOptions = true ∧ event.httpMethod = "GET" ∧
      toolPageAccept event = true))
    (hws : c.willStart = .ok ())
    (nb : Option BodyVal) (r : LambdaResult)
    (hfu : handleFileUploads c event (Headers.ofRaw event.headers) = .ok nb)
    (hbo : c.buildOptions = .ok ())
    (hrun : graphqlLambdaRun c { event with body := nb } = .ok r) :
    deliveredResponse (createHandler cfg c async event) =
      .ok { r with headers := (spread r.headers
              (requestCorsHeaders cfg.cors (Headers.ofRaw event.headers))) } ∧
    (∀ k v, assocGet (requestCorsHeaders cfg.cors (Headers.ofRaw event.headers)) k = some v →
      assocGet (spread r.headers
        (requestCorsHeaders cfg.cors (Headers.ofRaw event.headers))) k = some v) ∧
    (∀ k v, assocGet r.headers k = some v →
      assocGet (requestCorsHeaders cfg.cors (Headers.ofRaw event.headers)) k = none →
      assocGet (spread r.headers
        (requestCorsHeaders cfg.cors (Headers.ofRaw event.headers))) k = some v) ∧
    (∀ k v w, assocGet r.headers k = some v →
      assocGet (requestCorsHeaders cfg.cors (Headers.ofRaw event.headers)) k = some w →
      assocGet (spread r.headers
        (requestCorsHeaders cfg.cors (Headers.ofRaw event.headers))) k = some w) := by
  refine ⟨?_, ?_, ?_, ?_⟩
  · rw [delivered_main cfg c async event h1 h2]
    unfold mainPath
    rw [hws]
    dsimp only
    rw [hfu]
    dsimp only
    rw [hbo]
    dsimp only
    unfold corsMerge
    rw [hrun]
    dsimp only
    rw [objFromEntries_requestCors]
  · intro k v hv
    exact spread_get_right _ _ hv
  · intro k v hv hn
    exact spread_get_left _ _ hv hn
  · intro k v w hv hw
    rw [spread_get, hv, hw]
    simp

/-- Claim C4 witness: an engine-only header survives, the CORS header is
present, and the shared `access-control-allow-methods` key carries the CORS
value. -/
theorem claim_C4_witness :
    deliveredResponse (createHandler wCfgMethods wCollabClash true
        { httpMethod := "POST", body := some (.str "q") }) =
      .ok { body := "resp", statusCode := 200,
            headers := spread [("x-engine", "1"), ("access-control-allow-methods", "ENGINE")]
              (requestCorsHeaders wCfgMethods.cors (Headers.ofRaw [])) } ∧
    assocGet (spread [("x-engine", "1"), ("access-control-allow-methods", "ENGINE")]
      (requestCorsHeaders wCfgMethods.cors (Headers.ofRaw []))) "x-engine" = some "1" ∧
    assocGet (spread [("x-engine", "1"), ("access-control-allow-methods", "ENGINE")]
      (requestCorsHeaders wCfgMethods.cors (Headers.ofRaw [])))
      "access-control-allow-methods" = some "GET,POST" := by
  have h := claim_C4_merge_precedence wCfgMethods wCollabClash true
    { httpMethod := "POST", body := some (.str "q") } (by decide) (by decide) rfl
    (some (.str "q"))
    { body := "resp", statusCode := 200,
      headers := [("x-engine", "1"), ("access-control-allow-methods", "ENGINE")] }
    rfl rfl rfl
  exact ⟨h.1, h.2.2.1 "x-engine" "1" rfl (by decide),
    h.2.2.2 "access-control-allow-methods" "ENGINE" "GET,POST" rfl (by decide)⟩

end ApolloLambda